import Mathlib

/-!
Shallow embedding of the technique-handler subsystem of harp.gl's map view:
the generic per-frame update protocol (`GenericTechniqueHandler.update`),
the handler pool (`TechniqueHandlerPool.getTechniqueHandler`), the shared
color/visibility updater (`TechniqueHandlerCommon.updateBaseColor`), the
solid/dashed-line width updaters, and the tile-geometry orchestrator's
group-merging loop (`TileGeometryCreator.createObjects`).

Numbers that the source manipulates as JS doubles are modelled as rationals:
all the arithmetic involved is exact (products of decimal constants and
comparisons), so the rational model agrees with the double semantics on the
values the theorems mention.
-/

namespace Harp

/-- Expression-evaluation environment: `Env.lookup(name)` returns the value
bound to a runtime variable or `undefined`.  Only numeric variables are
relevant here (`$pixelToWorld`). -/
structure Env where
  lookup : String → Option ℚ

/-- The per-frame update context handed to `TechniqueHandler.update`
(frame number and evaluation environment; the other fields of the source
interface are not read by the functions modelled here). -/
structure TechniqueUpdateContext where
  frameNumber : Int
  env : Env

/-- `GenericTechniqueHandler` from `TechniqueHandlerCommon.ts`: a list of
registered updater closures and the last applied frame number (initialized
to `-1` in the source).  The mutable material/object state an updater
touches is abstracted as a world of type `W`; an updater is a function
`TechniqueUpdateContext → W → W`. -/
structure GenericTechniqueHandler (W : Type) where
  updaters : List (TechniqueUpdateContext → W → W)
  lastUpdateFrameNumber : Int

/-- Running the registered updaters in registration order (the source's
`for (const updater of this.updaters) updater(context)` loop). -/
def runUpdaters {W : Type} (updaters : List (TechniqueUpdateContext → W → W))
    (context : TechniqueUpdateContext) (w : W) : W :=
  updaters.foldl (fun acc u => u context acc) w

/-- `GenericTechniqueHandler.update(context)`: return unchanged if
`context.frameNumber === this.lastUpdateFrameNumber`; otherwise record the
frame number and run every registered updater in order. -/
def GenericTechniqueHandler.update {W : Type} (h : GenericTechniqueHandler W)
    (context : TechniqueUpdateContext) (w : W) : GenericTechniqueHandler W × W :=
  if context.frameNumber = h.lastUpdateFrameNumber then
    (h, w)
  else
    ({ h with lastUpdateFrameNumber := context.frameNumber },
      runUpdaters h.updaters context w)

/-- Concrete handler used by witnesses: two updaters that append markers to
a list world, so the order in which they ran is observable. -/
def updateExampleHandler : GenericTechniqueHandler (List Nat) :=
  { updaters := [fun _ l => l ++ [1], fun _ l => l ++ [2]],
    lastUpdateFrameNumber := -1 }

/-- A concrete update context with frame number 0 and an empty environment. -/
def updateExampleContext : TechniqueUpdateContext :=
  { frameNumber := 0, env := { lookup := fun _ => none } }

/-- A concrete update context with frame number 3 (older than 5). -/
def olderFrameContext : TechniqueUpdateContext :=
  { frameNumber := 3, env := { lookup := fun _ => none } }

/-- Concrete handler whose last applied frame number is 5. -/
def olderFrameHandler : GenericTechniqueHandler (List Nat) :=
  { updateExampleHandler with lastUpdateFrameNumber := 5 }

end Harp

namespace Harp

/-- C1: calling `update` twice with the same frame number performs the
updaters only on the first call (the second call returns handler and world
unchanged), and a call whose frame number differs from the last applied one
runs every registered updater in registration order and records that frame
number. -/
theorem update_once_per_frame {W : Type} (h : GenericTechniqueHandler W)
    (context : TechniqueUpdateContext) (w : W) :
    ((h.update context w).1.update context (h.update context w).2 = h.update context w) ∧
    (context.frameNumber ≠ h.lastUpdateFrameNumber →
      h.update context w =
        ({ h with lastUpdateFrameNumber := context.frameNumber },
          runUpdaters h.updaters context w)) := by
  constructor
  · by_cases heq : context.frameNumber = h.lastUpdateFrameNumber
    · simp [GenericTechniqueHandler.update, heq]
    · simp [GenericTechniqueHandler.update, heq]
  · intro hne
    simp [GenericTechniqueHandler.update, hne]

/-- Witness for C1: a fresh handler (last frame −1) updated at frame 0 runs
both updaters in registration order, and a repeated call at frame 0 changes
nothing. -/
theorem update_once_per_frame_witness :
    (updateExampleHandler.update updateExampleContext ([] : List Nat) =
      ({ updateExampleHandler with lastUpdateFrameNumber := 0 }, [1, 2])) ∧
    (({ updateExampleHandler with lastUpdateFrameNumber := 0 } :
        GenericTechniqueHandler (List Nat)).update updateExampleContext [1, 2] =
      ({ updateExampleHandler with lastUpdateFrameNumber := 0 }, [1, 2])) := by
  have h := update_once_per_frame updateExampleHandler updateExampleContext ([] : List Nat)
  have h2 := h.2 (by decide)
  constructor
  · exact h2
  · have h1 := h.1
    rw [h2] at h1
    exact h1

/-- C10: the frame-number deduplication is an equality test, not an order
test: a call whose frame number is strictly smaller (older) than the last
applied one still runs all registered updaters and overwrites the recorded
frame number. -/
theorem update_runs_on_older_frame {W : Type} (h : GenericTechniqueHandler W)
    (context : TechniqueUpdateContext) (w : W)
    (holder : context.frameNumber < h.lastUpdateFrameNumber) :
    h.update context w =
      ({ h with lastUpdateFrameNumber := context.frameNumber },
        runUpdaters h.updaters context w) := by
  have hne : context.frameNumber ≠ h.lastUpdateFrameNumber := ne_of_lt holder
  simp [GenericTechniqueHandler.update, hne]

/-- Witness for C10: a handler whose last applied frame is 5, updated at the
strictly older frame 3, runs both updaters and records frame 3. -/
theorem update_runs_on_older_frame_witness :
    ((3 : Int) < 5) ∧
    (olderFrameHandler.update olderFrameContext ([] : List Nat) =
      ({ olderFrameHandler with lastUpdateFrameNumber := 3 }, [1, 2])) :=
  ⟨by decide,
    update_runs_on_older_frame olderFrameHandler olderFrameContext [] (by decide)⟩

end Harp

namespace Harp

/-- A technique as seen by the pool: the kind name (looked up in the
registry of handler constructors) and the pooling identity key
(`technique._key`). -/
structure IndexedTechnique where
  name : String
  key : String

/-- A constructed technique handler as far as pooling is concerned: the
allocation identity of the freshly constructed object, and the shareability
flag the handler reports after construction. -/
structure PoolHandler where
  instanceId : Nat
  isShareableAcrossTiles : Bool
deriving DecidableEq

/-- `TechniqueHandlerPool`: a map keyed by `technique._key`, modelled as an
association list (the source only inserts a key that is not present). -/
structure TechniqueHandlerPool where
  pool : List (String × PoolHandler)
deriving DecidableEq

/-- `TechniqueHandlerPool.canHandle`: true iff a handler constructor is
registered for the technique's kind name (`technique.name in
techniqueHandlers`); the registry is passed in as `registered`. -/
def TechniqueHandlerPool.canHandle (registered : String → Bool)
    (technique : IndexedTechnique) : Bool :=
  registered technique.name

/-- `TechniqueHandlerPool.getTechniqueHandler`: return the pooled handler
for `technique._key` if present; otherwise construct one via the registered
constructor (`none` models the thrown error when no constructor is
registered) and insert it into the pool only if it reports itself
shareable.  Object allocation is modelled by threading a fresh-identity
counter `nextId` handed to the constructor. -/
def TechniqueHandlerPool.getTechniqueHandler {Tile : Type}
    (registered : String → Bool)
    (construct : IndexedTechnique → Tile → TechniqueUpdateContext → Nat → PoolHandler)
    (p : TechniqueHandlerPool) (nextId : Nat) (technique : IndexedTechnique)
    (tile : Tile) (context : TechniqueUpdateContext) :
    Option (PoolHandler × TechniqueHandlerPool × Nat) :=
  match p.pool.lookup technique.key with
  | some handler => some (handler, p, nextId)
  | none =>
      if registered technique.name then
        let handler := construct technique tile context nextId
        if handler.isShareableAcrossTiles then
          some (handler, ⟨(technique.key, handler) :: p.pool⟩, nextId + 1)
        else
          some (handler, p, nextId + 1)
      else
        none

/-- `TechniqueHandlerPool.reset`: clear the pool. -/
def TechniqueHandlerPool.reset (_p : TechniqueHandlerPool) : TechniqueHandlerPool :=
  ⟨[]⟩

/-- Constructor model whose handlers always report themselves shareable. -/
def shareableCtor : IndexedTechnique → Unit → TechniqueUpdateContext → Nat → PoolHandler :=
  fun _ _ _ n => ⟨n, true⟩

/-- Constructor model whose handlers always report themselves
non-shareable. -/
def privateCtor : IndexedTechnique → Unit → TechniqueUpdateContext → Nat → PoolHandler :=
  fun _ _ _ n => ⟨n, false⟩

/-- A concrete technique identity used by the pool witnesses. -/
def exampleTechnique : IndexedTechnique :=
  ⟨"solid-line", "k"⟩

/-- The empty pool. -/
def emptyPool : TechniqueHandlerPool :=
  ⟨[]⟩

end Harp

namespace Harp

/-- C2: for a technique identity key not yet pooled, if the constructed
handler reports itself shareable then the first request inserts it into the
pool and a second request (from any other tile) returns the very same
handler instance with pool and allocation counter unchanged; if the
constructed handlers report themselves non-shareable then neither request
inserts anything, the two requests return two freshly constructed handlers,
and their allocation identities differ. -/
theorem pool_shareable_identity (Tile : Type) (registered : String → Bool)
    (construct : IndexedTechnique → Tile → TechniqueUpdateContext → Nat → PoolHandler)
    (hfresh : ∀ t tile context n, (construct t tile context n).instanceId = n)
    (p : TechniqueHandlerPool) (n : Nat) (technique : IndexedTechnique)
    (tile1 tile2 : Tile) (context1 context2 : TechniqueUpdateContext)
    (hmiss : p.pool.lookup technique.key = none)
    (hreg : registered technique.name = true) :
    ((construct technique tile1 context1 n).isShareableAcrossTiles = true →
      p.getTechniqueHandler registered construct n technique tile1 context1 =
          some (construct technique tile1 context1 n,
            ⟨(technique.key, construct technique tile1 context1 n) :: p.pool⟩, n + 1) ∧
        (⟨(technique.key, construct technique tile1 context1 n) :: p.pool⟩ :
            TechniqueHandlerPool).pool.lookup technique.key =
          some (construct technique tile1 context1 n) ∧
        (⟨(technique.key, construct technique tile1 context1 n) :: p.pool⟩ :
            TechniqueHandlerPool).getTechniqueHandler registered construct (n + 1)
            technique tile2 context2 =
          some (construct technique tile1 context1 n,
            ⟨(technique.key, construct technique tile1 context1 n) :: p.pool⟩, n + 1)) ∧
    ((construct technique tile1 context1 n).isShareableAcrossTiles = false →
      (construct technique tile2 context2 (n + 1)).isShareableAcrossTiles = false →
      p.getTechniqueHandler registered construct n technique tile1 context1 =
          some (construct technique tile1 context1 n, p, n + 1) ∧
        p.getTechniqueHandler registered construct (n + 1) technique tile2 context2 =
          some (construct technique tile2 context2 (n + 1), p, n + 2) ∧
        p.pool.lookup technique.key = none ∧
        (construct technique tile1 context1 n).instanceId ≠
          (construct technique tile2 context2 (n + 1)).instanceId) := by
  constructor
  · intro hshare
    refine ⟨?_, ?_, ?_⟩
    · simp [TechniqueHandlerPool.getTechniqueHandler, hmiss, hreg, hshare]
    · simp [List.lookup]
    · simp [TechniqueHandlerPool.getTechniqueHandler, List.lookup]
  · intro hpriv1 hpriv2
    refine ⟨?_, ?_, hmiss, ?_⟩
    · simp [TechniqueHandlerPool.getTechniqueHandler, hmiss, hreg, hpriv1]
    · simp [TechniqueHandlerPool.getTechniqueHandler, hmiss, hreg, hpriv2]
    · rw [hfresh, hfresh]
      omega

/-- Witness for C2: on the empty pool, a shareable constructor yields the
same instance (id 0) for two requests and pools it under key "k"; a
non-shareable constructor yields instances with ids 0 and 1 and the pool
stays empty. -/
theorem pool_shareable_identity_witness :
    (emptyPool.getTechniqueHandler (fun _ => true) shareableCtor 0 exampleTechnique
          () updateExampleContext =
        some (⟨0, true⟩, ⟨[("k", ⟨0, true⟩)]⟩, 1) ∧
      (⟨[("k", ⟨0, true⟩)]⟩ : TechniqueHandlerPool).pool.lookup "k" = some ⟨0, true⟩ ∧
      (⟨[("k", ⟨0, true⟩)]⟩ : TechniqueHandlerPool).getTechniqueHandler (fun _ => true)
          shareableCtor 1 exampleTechnique () updateExampleContext =
        some (⟨0, true⟩, ⟨[("k", ⟨0, true⟩)]⟩, 1)) ∧
    (emptyPool.getTechniqueHandler (fun _ => true) privateCtor 0 exampleTechnique
          () updateExampleContext =
        some (⟨0, false⟩, emptyPool, 1) ∧
      emptyPool.getTechniqueHandler (fun _ => true) privateCtor 1 exampleTechnique
          () updateExampleContext =
        some (⟨1, false⟩, emptyPool, 2) ∧
      emptyPool.pool.lookup "k" = none ∧
      (PoolHandler.instanceId ⟨0, false⟩ ≠ PoolHandler.instanceId ⟨1, false⟩)) := by
  constructor
  · exact (pool_shareable_identity Unit (fun _ => true) shareableCtor
      (fun _ _ _ _ => rfl) emptyPool 0 exampleTechnique () ()
      updateExampleContext updateExampleContext rfl rfl).1 rfl
  · exact (pool_shareable_identity Unit (fun _ => true) privateCtor
      (fun _ _ _ _ => rfl) emptyPool 0 exampleTechnique () ()
      updateExampleContext updateExampleContext rfl rfl).2 rfl rfl

end Harp

namespace Harp

/-- A material with a base color and an opacity (the `THREE.Material &
{color}` shape that `updateBaseColor` manipulates); the color is an opaque
numeric stand-in. -/
structure BaseColorMaterial where
  color : ℚ
  opacity : ℚ
deriving DecidableEq

/-- `TileObjectEntry`: a produced render object (identified by id, its
`visible` flag lives in a visibility store) paired with its owning tile,
represented by the tile's `frameNumLastVisible` at update time. -/
structure TileObjectEntry where
  objectId : Nat
  tileFrameNumLastVisible : Int
deriving DecidableEq

/-- Write one object's `visible` flag in a visibility store. -/
def setVisible (vis : Nat → Bool) (objectId : Nat) (v : Bool) : Nat → Bool :=
  fun j => if j = objectId then v else vis j

/-- `TechniqueHandlerCommon.updateBaseColor`: remember the previous opacity,
apply the base color to the material (`applyBaseColorToMaterial` is an
external helper from `DecodedTileHelpers`; its net effect on the material is
the parameter `applyBaseColor`), and if the opacity changed, set
`visible = opacity > 0` on every registered object whose owning tile was
last visible in the current frame. -/
def updateBaseColor (applyBaseColor : BaseColorMaterial → BaseColorMaterial)
    (material : BaseColorMaterial) (objects : List TileObjectEntry)
    (visible : Nat → Bool) (context : TechniqueUpdateContext) :
    BaseColorMaterial × (Nat → Bool) :=
  let lastOpacity := material.opacity
  let material2 := applyBaseColor material
  if lastOpacity ≠ material2.opacity then
    (material2,
      objects.foldl
        (fun vis entry =>
          if entry.tileFrameNumLastVisible = context.frameNumber then
            setVisible vis entry.objectId (decide (0 < material2.opacity))
          else vis)
        visible)
  else
    (material2, visible)

/-- Concrete apply effect for the C3 witness: opacity drops to 0. -/
def fadeOutApply : BaseColorMaterial → BaseColorMaterial :=
  fun m => { m with opacity := 0 }

/-- Concrete material at full opacity. -/
def exampleMaterial : BaseColorMaterial :=
  ⟨5, 1⟩

/-- Two registered objects: object 10 owned by a tile visible in frame 7,
object 11 owned by a tile last visible in frame 3. -/
def exampleEntries : List TileObjectEntry :=
  [⟨10, 7⟩, ⟨11, 3⟩]

/-- A visibility store where everything starts visible. -/
def allVisible : Nat → Bool :=
  fun _ => true

/-- A concrete update context at frame 7. -/
def frame7Context : TechniqueUpdateContext :=
  ⟨7, ⟨fun _ => none⟩⟩

end Harp

namespace Harp

/-- The visibility loop of `updateBaseColor`, characterized pointwise: an
object id ends up with flag `b` iff some registered entry carries that id
and a tile last visible in frame `frame`; otherwise its flag is untouched. -/
theorem foldl_setVisible_spec (frame : Int) (b : Bool) (objects : List TileObjectEntry) :
    ∀ (vis : Nat → Bool) (j : Nat),
      objects.foldl
          (fun vis entry =>
            if entry.tileFrameNumLastVisible = frame then
              setVisible vis entry.objectId b
            else vis)
          vis j =
        if objects.any
            (fun entry =>
              decide (entry.objectId = j) && decide (entry.tileFrameNumLastVisible = frame)) then
          b
        else vis j := by
  induction objects with
  | nil =>
    intro vis j
    simp
  | cons e rest ih =>
    intro vis j
    simp only [List.foldl_cons, List.any_cons]
    rw [ih]
    by_cases hr :
        rest.any
            (fun entry =>
              decide (entry.objectId = j) && decide (entry.tileFrameNumLastVisible = frame)) =
          true
    · simp [hr]
    · simp only [Bool.not_eq_true] at hr
      by_cases h1 : e.tileFrameNumLastVisible = frame
      · by_cases h2 : e.objectId = j
        · simp [hr, h1, h2, setVisible]
        · have h2sym : ¬ j = e.objectId := fun h => h2 h.symm
          simp [hr, h1, h2, setVisible, h2sym]
      · simp [hr, h1]

/-- C3: when the applied base color changes the material's opacity, every
registered object whose owning tile was last visible in the current frame
gets `visible = (opacity > 0)`, and every object all of whose registrations
belong to tiles not visible in the current frame keeps its flag. -/
theorem updateBaseColor_visibility
    (applyBaseColor : BaseColorMaterial → BaseColorMaterial)
    (material : BaseColorMaterial) (objects : List TileObjectEntry)
    (visible : Nat → Bool) (context : TechniqueUpdateContext)
    (hchange : (applyBaseColor material).opacity ≠ material.opacity) :
    (updateBaseColor applyBaseColor material objects visible context).1 =
        applyBaseColor material ∧
    (∀ j, (∃ e ∈ objects, e.objectId = j ∧
          e.tileFrameNumLastVisible = context.frameNumber) →
      (updateBaseColor applyBaseColor material objects visible context).2 j =
        decide (0 < (applyBaseColor material).opacity)) ∧
    (∀ j, (∀ e ∈ objects, e.objectId = j →
          e.tileFrameNumLastVisible ≠ context.frameNumber) →
      (updateBaseColor applyBaseColor material objects visible context).2 j = visible j) := by
  have hcond : material.opacity ≠ (applyBaseColor material).opacity := hchange.symm
  refine ⟨?_, ?_, ?_⟩
  · simp [updateBaseColor, hcond]
  · intro j hj
    obtain ⟨e, he, heid, hef⟩ := hj
    simp only [updateBaseColor, hcond, ne_eq, not_false_iff, if_true]
    rw [foldl_setVisible_spec]
    have hany :
        objects.any
            (fun entry =>
              decide (entry.objectId = j) &&
                decide (entry.tileFrameNumLastVisible = context.frameNumber)) =
          true := by
      rw [List.any_eq_true]
      exact ⟨e, he, by simp [heid, hef]⟩
    rw [hany]
    simp
  · intro j hj
    simp only [updateBaseColor, hcond, ne_eq, not_false_iff, if_true]
    rw [foldl_setVisible_spec]
    have hany :
        objects.any
            (fun entry =>
              decide (entry.objectId = j) &&
                decide (entry.tileFrameNumLastVisible = context.frameNumber)) =
          false := by
      rw [List.any_eq_false]
      intro e he
      by_cases heid : e.objectId = j
      · simp [heid, hj e he heid]
      · simp [heid]
    rw [hany]
    simp

/-- Witness for C3: opacity 1 → 0 at frame 7; object 10 (tile visible in
frame 7) becomes invisible, object 11 (tile last visible in frame 3) stays
visible. -/
theorem updateBaseColor_visibility_witness :
    ((fadeOutApply exampleMaterial).opacity ≠ exampleMaterial.opacity) ∧
    (updateBaseColor fadeOutApply exampleMaterial exampleEntries allVisible
        frame7Context).1 = ⟨5, 0⟩ ∧
    (updateBaseColor fadeOutApply exampleMaterial exampleEntries allVisible
        frame7Context).2 10 = false ∧
    (updateBaseColor fadeOutApply exampleMaterial exampleEntries allVisible
        frame7Context).2 11 = true := by
  have hchange : (fadeOutApply exampleMaterial).opacity ≠ exampleMaterial.opacity := by
    simp [fadeOutApply, exampleMaterial]
  have h := updateBaseColor_visibility fadeOutApply exampleMaterial exampleEntries
    allVisible frame7Context hchange
  refine ⟨hchange, h.1, ?_, ?_⟩
  · have := h.2.1 10 ⟨⟨10, 7⟩, by simp [exampleEntries], rfl, rfl⟩
    simpa [fadeOutApply, exampleMaterial] using this
  · have := h.2.2 11 ?_
    · simpa [allVisible] using this
    · intro e he heid
      simp only [exampleEntries, List.mem_cons, List.mem_singleton] at he
      rcases he with he | he | he
      · rw [he] at heid
        simp at heid
      · rw [he]
        simp [frame7Context]
      · simp at he

end Harp

namespace Harp

/-- The `SolidLineMaterial` fields manipulated by the solid/dashed-line
updaters.  `opacity` is optional to mirror the source's explicit
`opacity === undefined` check. -/
structure SolidLineMaterial where
  color : ℚ
  opacity : Option ℚ
  lineWidth : ℚ
  outlineWidth : ℚ
  dashSize : ℚ
  gapSize : ℚ
deriving DecidableEq

/-- The solid/dashed-line technique attributes read by the updaters.  Each
dynamic attribute is represented by its evaluated value under an
environment (the result of `getPropertyValue(attr, env)`). -/
structure SolidLineTechnique where
  lineWidth : Env → ℚ
  outlineWidth : Env → ℚ
  dashSize : Env → ℚ
  gapSize : Env → ℚ
  secondaryWidth : Env → ℚ

/-- The `SolidLineTechniqueHandler` state touched by the modelled updaters
and by `createObject`.  Freshly allocated meshes are identified by ids drawn
from `nextObjectId`. -/
structure SolidLineHandler where
  technique : SolidLineTechnique
  mainMaterial : SolidLineMaterial
  secondaryMaterial : Option SolidLineMaterial
  metricUnitIsPixel : Bool
  mainObjects : List TileObjectEntry
  secondaryObjects : List TileObjectEntry
  nextObjectId : Nat

/-- `getPixelToWorld`: `(context.env.lookup("$pixelToWorld") as number) ?? 1.0`. -/
def getPixelToWorld (context : TechniqueUpdateContext) : ℚ :=
  (context.env.lookup "$pixelToWorld").getD 1

/-- `getUnitFactor`: the pixel-to-world ratio for pixel-metric techniques,
`1.0` for world-unit techniques. -/
def SolidLineHandler.getUnitFactor (h : SolidLineHandler)
    (context : TechniqueUpdateContext) : ℚ :=
  if h.metricUnitIsPixel then getPixelToWorld context else 1

/-- `updateLineWidth`: evaluated width times unit factor times `0.5`. -/
def SolidLineHandler.updateLineWidth (h : SolidLineHandler)
    (context : TechniqueUpdateContext) : SolidLineHandler :=
  { h with mainMaterial :=
      { h.mainMaterial with lineWidth :=
          h.technique.lineWidth context.env * h.getUnitFactor context * (1 / 2) } }

/-- `updateOutlineWidth`: evaluated width times unit factor (no `0.5`). -/
def SolidLineHandler.updateOutlineWidth (h : SolidLineHandler)
    (context : TechniqueUpdateContext) : SolidLineHandler :=
  { h with mainMaterial :=
      { h.mainMaterial with outlineWidth :=
          h.technique.outlineWidth context.env * h.getUnitFactor context } }

/-- `updateDashSize`: evaluated size times unit factor times `0.5`. -/
def SolidLineHandler.updateDashSize (h : SolidLineHandler)
    (context : TechniqueUpdateContext) : SolidLineHandler :=
  { h with mainMaterial :=
      { h.mainMaterial with dashSize :=
          h.technique.dashSize context.env * h.getUnitFactor context * (1 / 2) } }

/-- `updateGapSize`: evaluated size times unit factor times `0.5`. -/
def SolidLineHandler.updateGapSize (h : SolidLineHandler)
    (context : TechniqueUpdateContext) : SolidLineHandler :=
  { h with mainMaterial :=
      { h.mainMaterial with gapSize :=
          h.technique.gapSize context.env * h.getUnitFactor context * (1 / 2) } }

/-- `updateSecondaryWidth`: the converted secondary width collapses to `0`
when it does not exceed the (already updated) main line width while the main
material is fully opaque (`opacity === undefined || opacity === 1`);
otherwise it is applied unmodified.  `none` models the failed assertion when
no secondary material exists. -/
def SolidLineHandler.updateSecondaryWidth (h : SolidLineHandler)
    (context : TechniqueUpdateContext) : Option SolidLineHandler :=
  match h.secondaryMaterial with
  | none => none
  | some secondaryMaterial =>
      let opacity := h.mainMaterial.opacity
      let unitFactor := h.getUnitFactor context
      let techniqueLineWidth := h.mainMaterial.lineWidth
      let techniqueSecondaryWidth :=
        h.technique.secondaryWidth context.env * unitFactor * (1 / 2)
      let actualLineWidth :=
        if techniqueSecondaryWidth ≤ techniqueLineWidth ∧
            (opacity = none ∨ opacity = some 1) then
          0
        else
          techniqueSecondaryWidth
      let secondaryMaterial2 := { secondaryMaterial with lineWidth := actualLineWidth }
      some { h with secondaryMaterial := some secondaryMaterial2 }

/-- The `opacity > 0` test of the visibility toggles, where an undefined
opacity compares as not greater than zero. -/
def opacityIsPositive (m : SolidLineMaterial) : Bool :=
  match m.opacity with
  | some o => decide (0 < o)
  | none => false

/-- `SolidLineTechniqueHandler.createObject`: allocate the main mesh, append
it to `mainObjects`; when a secondary material exists, allocate the
secondary mesh but append an entry carrying the *main* mesh to
`secondaryObjects` (the source pushes `{ object: mainObject, tile }`), and
return both meshes. -/
def SolidLineHandler.createObject (h : SolidLineHandler)
    (tileFrameNumLastVisible : Int) : SolidLineHandler × List Nat :=
  let mainObjectId := h.nextObjectId
  let h1 := { h with
    nextObjectId := h.nextObjectId + 1,
    mainObjects := h.mainObjects ++ [⟨mainObjectId, tileFrameNumLastVisible⟩] }
  match h.secondaryMaterial with
  | some _ =>
      let secondaryObjectId := h1.nextObjectId
      let h2 := { h1 with
        nextObjectId := h1.nextObjectId + 1,
        secondaryObjects :=
          h1.secondaryObjects ++ [⟨mainObjectId, tileFrameNumLastVisible⟩] }
      (h2, [mainObjectId, secondaryObjectId])
  | none => (h1, [mainObjectId])

/-- `updateSecondaryColor`: apply the base color to the secondary material
(external effect passed as `applyBaseColor`), and if its opacity changed,
toggle `visible` on the entries of `secondaryObjects` whose tile was visible
this frame. -/
def SolidLineHandler.updateSecondaryColor
    (applyBaseColor : SolidLineMaterial → SolidLineMaterial)
    (h : SolidLineHandler) (visible : Nat → Bool)
    (context : TechniqueUpdateContext) :
    Option (SolidLineHandler × (Nat → Bool)) :=
  match h.secondaryMaterial with
  | none => none
  | some secondaryMaterial =>
      let lastOpacity := secondaryMaterial.opacity
      let secondaryMaterial2 := applyBaseColor secondaryMaterial
      let h2 := { h with secondaryMaterial := some secondaryMaterial2 }
      if lastOpacity ≠ secondaryMaterial2.opacity then
        some (h2,
          h.secondaryObjects.foldl
            (fun vis entry =>
              if entry.tileFrameNumLastVisible = context.frameNumber then
                setVisible vis entry.objectId (opacityIsPositive secondaryMaterial2)
              else vis)
            visible)
      else
        some (h2, visible)

/-- Technique whose evaluated attribute values are all 10. -/
def tenTechnique : SolidLineTechnique :=
  ⟨fun _ => 10, fun _ => 10, fun _ => 10, fun _ => 10, fun _ => 10⟩

/-- A solid-line material with neutral fields. -/
def baseLineMaterial : SolidLineMaterial :=
  ⟨0, some 1, 0, 0, 0, 0⟩

/-- Pixel-metric handler used by the C6 witness computation. -/
def pixelHandler : SolidLineHandler :=
  { technique := tenTechnique, mainMaterial := baseLineMaterial,
    secondaryMaterial := none, metricUnitIsPixel := true,
    mainObjects := [], secondaryObjects := [], nextObjectId := 0 }

/-- Environment binding `$pixelToWorld` to 0.02 (= 1/50). -/
def pixelContext : TechniqueUpdateContext :=
  ⟨0, ⟨fun s => if s = "$pixelToWorld" then some (1 / 50) else none⟩⟩

end Harp

namespace Harp

/-- C6: each width/dash/gap update applies the evaluated technique value
times the unit factor (pixel-to-world ratio, defaulting to 1 when the
lookup is absent, for pixel-metric techniques; 1 for world units) times
`0.5`, while the outline-width update applies the unit factor without the
`0.5`; in particular a pixel-metric `lineWidth = 10` under a pixel-to-world
ratio of 0.02 yields an applied line width of 0.1. -/
theorem line_width_unit_conversion :
    (∀ (h : SolidLineHandler) (context : TechniqueUpdateContext),
      (h.updateLineWidth context).mainMaterial.lineWidth =
        h.technique.lineWidth context.env *
          (if h.metricUnitIsPixel then
            (context.env.lookup "$pixelToWorld").getD 1
          else 1) * (1 / 2)) ∧
    (∀ (h : SolidLineHandler) (context : TechniqueUpdateContext),
      (h.updateDashSize context).mainMaterial.dashSize =
        h.technique.dashSize context.env *
          (if h.metricUnitIsPixel then
            (context.env.lookup "$pixelToWorld").getD 1
          else 1) * (1 / 2)) ∧
    (∀ (h : SolidLineHandler) (context : TechniqueUpdateContext),
      (h.updateGapSize context).mainMaterial.gapSize =
        h.technique.gapSize context.env *
          (if h.metricUnitIsPixel then
            (context.env.lookup "$pixelToWorld").getD 1
          else 1) * (1 / 2)) ∧
    (∀ (h : SolidLineHandler) (context : TechniqueUpdateContext),
      (h.updateOutlineWidth context).mainMaterial.outlineWidth =
        h.technique.outlineWidth context.env *
          (if h.metricUnitIsPixel then
            (context.env.lookup "$pixelToWorld").getD 1
          else 1)) ∧
    ((pixelHandler.updateLineWidth pixelContext).mainMaterial.lineWidth = 1 / 10) := by
  refine ⟨?_, ?_, ?_, ?_, ?_⟩
  · intro h context
    rfl
  · intro h context
    rfl
  · intro h context
    rfl
  · intro h context
    rfl
  · show (10 : ℚ) * (if pixelHandler.metricUnitIsPixel then
        (pixelContext.env.lookup "$pixelToWorld").getD 1 else 1) * (1 / 2) = 1 / 10
    norm_num [pixelHandler, pixelContext]

end Harp

namespace Harp

/-- Secondary material at full opacity with neutral fields. -/
def exampleSecondaryMaterial : SolidLineMaterial :=
  ⟨0, some 1, 0, 0, 0, 0⟩

/-- Main material with line width 0.1 at full opacity. -/
def mainWidthTenthFull : SolidLineMaterial :=
  ⟨0, some 1, 1 / 10, 0, 0, 0⟩

/-- Main material with line width 0.1 at opacity 0.5. -/
def mainWidthTenthHalf : SolidLineMaterial :=
  ⟨0, some (1 / 2), 1 / 10, 0, 0, 0⟩

/-- Technique requesting a secondary width that converts to 0.08
(0.16 world units times the 0.5 half-width factor). -/
def secondaryRequestTechnique : SolidLineTechnique :=
  ⟨fun _ => 0, fun _ => 0, fun _ => 0, fun _ => 0, fun _ => 4 / 25⟩

/-- World-unit handler, main width 0.1 fully opaque, with a secondary
material. -/
def secondaryHandlerFull : SolidLineHandler :=
  { technique := secondaryRequestTechnique, mainMaterial := mainWidthTenthFull,
    secondaryMaterial := some exampleSecondaryMaterial, metricUnitIsPixel := false,
    mainObjects := [], secondaryObjects := [], nextObjectId := 0 }

/-- Same handler with main opacity 0.5. -/
def secondaryHandlerHalf : SolidLineHandler :=
  { secondaryHandlerFull with mainMaterial := mainWidthTenthHalf }

/-- Expected secondary material after the collapse at full opacity. -/
def secondaryFullResult : SolidLineHandler :=
  { secondaryHandlerFull with
    secondaryMaterial := some { exampleSecondaryMaterial with lineWidth := 0 } }

/-- Expected secondary material at opacity 0.5: the converted width 0.08. -/
def secondaryHalfResult : SolidLineHandler :=
  { secondaryHandlerHalf with
    secondaryMaterial := some { exampleSecondaryMaterial with lineWidth := 2 / 25 } }

/-- Concrete base-color effect dropping the secondary opacity to 0. -/
def slFadeApply : SolidLineMaterial → SolidLineMaterial :=
  fun m => { m with opacity := some 0 }

end Harp

namespace Harp

/-- C7: the applied secondary line width is 0 when the converted secondary
width does not exceed the (already updated) main line width while the main
material's opacity is full (1 or undefined); otherwise the converted
secondary width is applied unmodified. -/
theorem secondary_width_collapse (h : SolidLineHandler)
    (context : TechniqueUpdateContext) (secondaryMaterial : SolidLineMaterial)
    (hsec : h.secondaryMaterial = some secondaryMaterial) :
    h.updateSecondaryWidth context =
      some
        { h with
          secondaryMaterial :=
            some
              { secondaryMaterial with
                lineWidth :=
                  if h.technique.secondaryWidth context.env * h.getUnitFactor context *
                          (1 / 2) ≤
                        h.mainMaterial.lineWidth ∧
                      (h.mainMaterial.opacity = none ∨ h.mainMaterial.opacity = some 1) then
                    0
                  else
                    h.technique.secondaryWidth context.env * h.getUnitFactor context *
                      (1 / 2) } } := by
  simp [SolidLineHandler.updateSecondaryWidth, hsec]

/-- Witness for C7: main width 0.1, converted secondary request 0.08; at
full opacity the applied secondary width is 0, at opacity 0.5 it is 0.08
(= 2/25). -/
theorem secondary_width_collapse_witness :
    (secondaryHandlerFull.secondaryMaterial = some exampleSecondaryMaterial) ∧
    (secondaryHandlerFull.updateSecondaryWidth updateExampleContext =
      some secondaryFullResult) ∧
    (secondaryHandlerHalf.updateSecondaryWidth updateExampleContext =
      some secondaryHalfResult) := by
  refine ⟨rfl, ?_, ?_⟩
  · rw [secondary_width_collapse secondaryHandlerFull updateExampleContext
      exampleSecondaryMaterial rfl]
    simp +decide [secondaryHandlerFull, secondaryRequestTechnique, mainWidthTenthFull,
      exampleSecondaryMaterial, secondaryFullResult, SolidLineHandler.getUnitFactor,
      getPixelToWorld, updateExampleContext]
    norm_num
  · rw [secondary_width_collapse secondaryHandlerHalf updateExampleContext
      exampleSecondaryMaterial rfl]
    simp +decide [secondaryHandlerHalf, secondaryHandlerFull, secondaryRequestTechnique,
      mainWidthTenthHalf, exampleSecondaryMaterial, secondaryHalfResult,
      SolidLineHandler.getUnitFactor, getPixelToWorld, updateExampleContext]
    norm_num

/-- C9: with a secondary material present, `createObject` allocates distinct
main and secondary meshes, returns both, but appends an entry referencing
the *main* mesh to `secondaryObjects`; consequently the secondary-color
updater's visibility toggling never changes the secondary mesh's visible
flag. -/
theorem secondary_entry_references_main (h : SolidLineHandler)
    (secondaryMaterial : SolidLineMaterial) (tileFrame : Int)
    (hsec : h.secondaryMaterial = some secondaryMaterial)
    (hbound : ∀ e ∈ h.secondaryObjects, e.objectId < h.nextObjectId) :
    ((h.createObject tileFrame).2 = [h.nextObjectId, h.nextObjectId + 1]) ∧
    ((h.createObject tileFrame).1.secondaryObjects =
      h.secondaryObjects ++ [⟨h.nextObjectId, tileFrame⟩]) ∧
    (h.nextObjectId ≠ h.nextObjectId + 1) ∧
    (∀ (applyBaseColor : SolidLineMaterial → SolidLineMaterial)
        (visible : Nat → Bool) (context : TechniqueUpdateContext)
        (result : SolidLineHandler × (Nat → Bool)),
      SolidLineHandler.updateSecondaryColor applyBaseColor
          (h.createObject tileFrame).1 visible context = some result →
      result.2 (h.nextObjectId + 1) = visible (h.nextObjectId + 1)) := by
  have hcm : (h.createObject tileFrame).1.secondaryMaterial = some secondaryMaterial := by
    simp [SolidLineHandler.createObject, hsec]
  have hco : (h.createObject tileFrame).1.secondaryObjects =
      h.secondaryObjects ++ [⟨h.nextObjectId, tileFrame⟩] := by
    simp [SolidLineHandler.createObject, hsec]
  refine ⟨by simp [SolidLineHandler.createObject, hsec], hco, by omega, ?_⟩
  intro applyBaseColor visible context result hres
  simp only [SolidLineHandler.updateSecondaryColor, hcm, hco] at hres
  by_cases hop : secondaryMaterial.opacity ≠ (applyBaseColor secondaryMaterial).opacity
  · rw [if_pos hop] at hres
    cases hres
    show List.foldl _ visible _ (h.nextObjectId + 1) = visible (h.nextObjectId + 1)
    rw [foldl_setVisible_spec]
    have hany :
        ((h.secondaryObjects ++ [(⟨h.nextObjectId, tileFrame⟩ : TileObjectEntry)]).any
            (fun entry =>
              decide (entry.objectId = h.nextObjectId + 1) &&
                decide (entry.tileFrameNumLastVisible = context.frameNumber))) =
          false := by
      rw [List.any_eq_false]
      intro e he
      rcases List.mem_append.mp he with hmem | hmem
      · have := hbound e hmem
        simp only [Bool.and_eq_true, decide_eq_true_eq, not_and]
        intro heq
        omega
      · simp only [List.mem_singleton] at hmem
        subst hmem
        simp only [Bool.and_eq_true, decide_eq_true_eq, not_and]
        intro heq
        omega
    rw [hany]
    simp
  · rw [if_neg hop] at hres
    cases hres
    rfl

/-- Witness for C9: on a fresh handler with a secondary material,
`createObject` returns meshes 0 (main) and 1 (secondary), registers mesh 0
in `secondaryObjects`, and a secondary-color update that drops the opacity
to 0 leaves mesh 1's visible flag untouched. -/
theorem secondary_entry_references_main_witness :
    ((secondaryHandlerFull.createObject 7).2 = [0, 1]) ∧
    ((secondaryHandlerFull.createObject 7).1.secondaryObjects = [⟨0, 7⟩]) ∧
    ((SolidLineHandler.updateSecondaryColor slFadeApply
        (secondaryHandlerFull.createObject 7).1 allVisible frame7Context).map
        (fun r => r.2 1) = some (allVisible 1)) ∧
    allVisible 1 = true := by
  have h := secondary_entry_references_main secondaryHandlerFull
    exampleSecondaryMaterial 7 rfl
    (by intro e he; simp [secondaryHandlerFull] at he)
  refine ⟨h.1, by simpa [secondaryHandlerFull] using h.2.1, ?_, rfl⟩
  have hcm : (secondaryHandlerFull.createObject 7).1.secondaryMaterial =
      some exampleSecondaryMaterial := rfl
  cases hres : SolidLineHandler.updateSecondaryColor slFadeApply
      (secondaryHandlerFull.createObject 7).1 allVisible frame7Context with
  | none =>
      simp only [SolidLineHandler.updateSecondaryColor, hcm] at hres
      split at hres
      · exact Option.noConfusion hres
      · exact Option.noConfusion hres
  | some r =>
      have hval := h.2.2.2 slFadeApply allVisible frame7Context r hres
      simpa [secondaryHandlerFull] using hval

end Harp

namespace Harp

/-- A geometry attribute group (`Group` of the datasource protocol): a
contiguous span `[start, start+count)` labeled with a technique index,
carrying the per-tile-offset created markers (`createdOffsets`). -/
structure GeometryGroup where
  start : Nat
  count : Nat
  technique : Nat
  createdOffsets : List Int
deriving DecidableEq

/-- The merged span handed to object creation (the orchestrator's local
`mergedGroup`). -/
structure MergedGroup where
  start : Nat
  count : Nat
  technique : Nat
deriving DecidableEq

/-- The per-call state of `TileGeometryCreator.createObjects`: the legacy
material cache (`materials`, by technique index), the per-call handler
cache (`techniqueHandlers` — declared and read in the source but never
written), the log of pool queries (`getTechniqueHandler` calls), and the
spans handed to handler `createObject` and to legacy object creation. -/
structure CreateObjectsState where
  materials : List Nat
  handlerCache : List Nat
  poolQueries : List Nat
  handlerSpans : List MergedGroup
  legacySpans : List MergedGroup
deriving DecidableEq

/-- The state at the start of a `createObjects` call: all caches empty. -/
def initialCreateObjectsState : CreateObjectsState :=
  ⟨[], [], [], [], []⟩

/-- The inner merge loop of `createObjects`: absorb immediately following
groups while they carry the same technique index and are buffer-contiguous
(`start + count === next.start`), pushing the tile offset onto each merged
group's `createdOffsets`.  Returns the accumulated count, the marked merged
groups, and the remaining groups. -/
def mergeConsecutiveGroups (techniqueIndex start : Nat) (offset : Int) :
    Nat → List GeometryGroup → Nat × List GeometryGroup × List GeometryGroup
  | count, [] => (count, [], [])
  | count, g :: rest =>
      if g.technique = techniqueIndex ∧ start + count = g.start then
        let r := mergeConsecutiveGroups techniqueIndex start offset (count + g.count) rest
        (r.1, { g with createdOffsets := g.createdOffsets ++ [offset] } :: r.2.1, r.2.2)
      else
        (count, [], g :: rest)

/-- The group loop of `TileGeometryCreator.createObjects` over one
geometry's group list, for one tile offset.  `accept` combines the
`technique.enabled === false` check and the optional technique filter (both
functions of the group's technique index); `canHandle` is the pool's
registry check; `hasObjectCtor` and `materialOk` model
`getObjectConstructor` and `createMaterial` succeeding on the legacy path.
A group is skipped when its `createdOffsets` already contain the tile
offset or its technique is not accepted; otherwise it is marked, merged
with its buffer-contiguous same-technique successors, and the merged span
is dispatched: to a technique handler (querying the pool whenever the
per-call handler cache misses — the source never fills that cache) or to
the legacy material path. -/
def createObjectsGroups (accept canHandle hasObjectCtor materialOk : Nat → Bool)
    (offset : Int) : List GeometryGroup → CreateObjectsState →
      List GeometryGroup × CreateObjectsState
  | [], st => ([], st)
  | g :: rest, st =>
      if offset ∈ g.createdOffsets ∨ accept g.technique = false then
        let r := createObjectsGroups accept canHandle hasObjectCtor materialOk offset rest st
        (g :: r.1, r.2)
      else
        let gMarked := { g with createdOffsets := g.createdOffsets ++ [offset] }
        let m := mergeConsecutiveGroups g.technique g.start offset g.count rest
        let span : MergedGroup := ⟨g.start, m.1, g.technique⟩
        let st2 :=
          if g.technique ∈ st.handlerCache ∨ canHandle g.technique = true then
            let st3 :=
              if g.technique ∈ st.handlerCache then st
              else { st with poolQueries := st.poolQueries ++ [g.technique] }
            { st3 with handlerSpans := st3.handlerSpans ++ [span] }
          else if hasObjectCtor g.technique = false then st
          else if g.technique ∈ st.materials then
            { st with legacySpans := st.legacySpans ++ [span] }
          else if materialOk g.technique then
            { st with materials := st.materials ++ [g.technique],
                      legacySpans := st.legacySpans ++ [span] }
          else st
        let r := createObjectsGroups accept canHandle hasObjectCtor materialOk offset
          m.2.2 st2
        (gMarked :: m.2.1 ++ r.1, r.2)
termination_by gs _ => gs.length
decreasing_by
· simp_wf
· simp_wf
  have hle : ∀ (c : Nat) (gs : List GeometryGroup),
      (mergeConsecutiveGroups g.technique g.start offset c gs).2.2.length ≤ gs.length := by
    intro c gs
    induction gs generalizing c with
    | nil =>
        simp [mergeConsecutiveGroups]
    | cons a as ih =>
        rw [mergeConsecutiveGroups]
        split
        · exact le_trans (ih _) (Nat.le_succ _)
        · exact Nat.le_refl _
  have := hle g.count rest
  omega

/-- Spec-side description of the merge: the maximal run of immediately
following groups that share the technique index and are buffer-contiguous
(each group starting exactly where the previous span ends).  This
definition follows the spec's wording and is proved equivalent to the
source-translated `mergeConsecutiveGroups`. -/
def specContiguousRun (techniqueIndex : Nat) : Nat → List GeometryGroup → List GeometryGroup
  | _, [] => []
  | pos, g :: rest =>
      if g.technique = techniqueIndex ∧ g.start = pos then
        g :: specContiguousRun techniqueIndex (g.start + g.count) rest
      else
        []

/-- The spec's merging example: groups `{0,5,A}`, `{5,3,A}`, `{8,2,B}` with
technique indices A = 0, B = 1 and no created offsets yet. -/
def mergeExampleGroups : List GeometryGroup :=
  [⟨0, 5, 0, []⟩, ⟨5, 3, 0, []⟩, ⟨8, 2, 1, []⟩]

/-- Two accepted handler-capable groups with the same technique index that
are not buffer-contiguous, so they are not merged. -/
def requeriedGroups : List GeometryGroup :=
  [⟨0, 5, 0, []⟩, ⟨8, 2, 0, []⟩]

end Harp

namespace Harp

/-- The merge loop consumes at most the rest of the group list. -/
theorem mergeConsecutiveGroups_rem_length (techniqueIndex start : Nat) (offset : Int) :
    ∀ (count : Nat) (groups : List GeometryGroup),
      (mergeConsecutiveGroups techniqueIndex start offset count groups).2.2.length ≤
        groups.length := by
  intro count groups
  induction groups generalizing count with
  | nil =>
      simp [mergeConsecutiveGroups]
  | cons a as ih =>
      rw [mergeConsecutiveGroups]
      split
      · exact le_trans (ih _) (Nat.le_succ _)
      · exact Nat.le_refl _

/-- Every group absorbed by the merge loop gets the tile offset pushed onto
its created markers. -/
theorem mergeConsecutiveGroups_marked (techniqueIndex start : Nat) (offset : Int) :
    ∀ (count : Nat) (groups : List GeometryGroup),
      ∀ g ∈ (mergeConsecutiveGroups techniqueIndex start offset count groups).2.1,
        offset ∈ g.createdOffsets := by
  intro count groups
  induction groups generalizing count with
  | nil =>
      simp [mergeConsecutiveGroups]
  | cons a as ih =>
      rw [mergeConsecutiveGroups]
      split
      · intro g hg
        rcases List.mem_cons.mp hg with rfl | hg2
        · simp
        · exact ih _ g hg2
      · intro g hg
        simp at hg

/-- After one pass of the group loop, every group whose technique is
accepted carries the tile offset in its created markers. -/
theorem createObjectsGroups_marks_accepted
    (accept canHandle hasObjectCtor materialOk : Nat → Bool) (offset : Int) :
    ∀ (gs : List GeometryGroup) (st : CreateObjectsState),
      ∀ g ∈ (createObjectsGroups accept canHandle hasObjectCtor materialOk offset gs st).1,
        accept g.technique = true → offset ∈ g.createdOffsets := by
  suffices h : ∀ (n : Nat) (gs : List GeometryGroup) (st : CreateObjectsState),
      gs.length ≤ n →
      ∀ g ∈ (createObjectsGroups accept canHandle hasObjectCtor materialOk offset gs st).1,
        accept g.technique = true → offset ∈ g.createdOffsets by
    intro gs st g hg ha
    exact h gs.length gs st le_rfl g hg ha
  intro n
  induction n with
  | zero =>
      intro gs st hlen g hg ha
      have hnil : gs = [] := List.eq_nil_of_length_eq_zero (Nat.le_zero.mp hlen)
      subst hnil
      rw [createObjectsGroups] at hg
      simp at hg
  | succ n ih =>
      intro gs st hlen g hg ha
      match gs, hlen with
      | [], _ =>
          rw [createObjectsGroups] at hg
          simp at hg
      | a :: rest, hlen =>
          rw [createObjectsGroups] at hg
          by_cases hskip : offset ∈ a.createdOffsets ∨ accept a.technique = false
          · rw [if_pos hskip] at hg
            rcases List.mem_cons.mp hg with rfl | hg2
            · rcases hskip with hmem | hacc
              · exact hmem
              · rw [ha] at hacc
                exact absurd hacc (by simp)
            · have hlen2 : rest.length ≤ n := by
                simp only [List.length_cons] at hlen
                omega
              exact ih rest st hlen2 g hg2 ha
          · rw [if_neg hskip] at hg
            rcases List.mem_cons.mp hg with rfl | hg2
            · simp
            · rcases List.mem_append.mp hg2 with hmid | htail
              · exact mergeConsecutiveGroups_marked a.technique a.start offset a.count rest
                  g hmid
              · have hlen2 :
                    (mergeConsecutiveGroups a.technique a.start offset a.count rest).2.2.length ≤
                      n := by
                  have := mergeConsecutiveGroups_rem_length a.technique a.start offset
                    a.count rest
                  simp only [List.length_cons] at hlen
                  omega
                exact ih _ _ hlen2 g htail ha

/-- A pass over groups that are all either unaccepted or already marked for
the tile offset changes nothing: every group is skipped, no span is created
and the state is returned untouched. -/
theorem createObjectsGroups_skips_marked
    (accept canHandle hasObjectCtor materialOk : Nat → Bool) (offset : Int) :
    ∀ (gs : List GeometryGroup) (st : CreateObjectsState),
      (∀ g ∈ gs, accept g.technique = true → offset ∈ g.createdOffsets) →
      createObjectsGroups accept canHandle hasObjectCtor materialOk offset gs st =
        (gs, st) := by
  intro gs
  induction gs with
  | nil =>
      intro st hmarked
      rw [createObjectsGroups]
  | cons a rest ih =>
      intro st hmarked
      have hskip : offset ∈ a.createdOffsets ∨ accept a.technique = false := by
        by_cases hacc : accept a.technique = true
        · exact Or.inl (hmarked a (List.mem_cons_self a rest) hacc)
        · exact Or.inr (by simpa using hacc)
      rw [createObjectsGroups, if_pos hskip]
      have hrec := ih st (fun g hg => hmarked g (List.mem_cons_of_mem a hg))
      rw [hrec]

/-- C5: re-processing the same group list for the same tile offset after a
pass has marked it is a complete no-op: the second pass leaves every group
unchanged and returns its input state untouched — in particular it emits no
handler or legacy span (no `createObject` call) and no pool query, so no
duplicate drawable objects are produced for a repeated offset. -/
theorem no_duplicate_creation_per_offset
    (accept canHandle hasObjectCtor materialOk : Nat → Bool) (offset : Int)
    (gs : List GeometryGroup) (st st2 : CreateObjectsState) :
    createObjectsGroups accept canHandle hasObjectCtor materialOk offset
        (createObjectsGroups accept canHandle hasObjectCtor materialOk offset gs st).1 st2 =
      ((createObjectsGroups accept canHandle hasObjectCtor materialOk offset gs st).1,
        st2) := by
  apply createObjectsGroups_skips_marked
  intro g hg ha
  exact createObjectsGroups_marks_accepted accept canHandle hasObjectCtor materialOk offset
    gs st g hg ha

end Harp

namespace Harp

/-- C4: the merge loop absorbs exactly the immediately following groups
with the same technique index that are buffer-contiguous
(`next.start = current.start + current.count`), producing one span whose
count is the sum of the merged counts, marking every merged group's offset
as created and leaving the remaining groups untouched; in particular, on
groups `{0,5,A}`, `{5,3,A}`, `{8,2,B}` the pass creates exactly the two
spans `{0,8,A}` and `{8,2,B}` and marks all three groups. -/
theorem merge_contiguous_groups :
    (∀ (techniqueIndex start : Nat) (offset : Int) (count : Nat)
        (groups : List GeometryGroup),
      mergeConsecutiveGroups techniqueIndex start offset count groups =
        (count +
            ((specContiguousRun techniqueIndex (start + count) groups).map
              GeometryGroup.count).sum,
          (specContiguousRun techniqueIndex (start + count) groups).map
            (fun g => { g with createdOffsets := g.createdOffsets ++ [offset] }),
          groups.drop (specContiguousRun techniqueIndex (start + count) groups).length)) ∧
    ((createObjectsGroups (fun _ => true) (fun _ => true) (fun _ => true) (fun _ => true) 0
        mergeExampleGroups initialCreateObjectsState).2.handlerSpans =
      [⟨0, 8, 0⟩, ⟨8, 2, 1⟩]) ∧
    ((createObjectsGroups (fun _ => true) (fun _ => true) (fun _ => true) (fun _ => true) 0
        mergeExampleGroups initialCreateObjectsState).1 =
      [⟨0, 5, 0, [0]⟩, ⟨5, 3, 0, [0]⟩, ⟨8, 2, 1, [0]⟩]) := by
  have hev : createObjectsGroups (fun _ => true) (fun _ => true) (fun _ => true)
      (fun _ => true) 0 mergeExampleGroups initialCreateObjectsState =
      ([⟨0, 5, 0, [0]⟩, ⟨5, 3, 0, [0]⟩, ⟨8, 2, 1, [0]⟩],
        ⟨[], [], [0, 1], [⟨0, 8, 0⟩, ⟨8, 2, 1⟩], []⟩) := by
    simp +decide [createObjectsGroups, mergeConsecutiveGroups, mergeExampleGroups,
      initialCreateObjectsState]
  refine ⟨?_, by rw [hev], by rw [hev]⟩
  intro techniqueIndex start offset count groups
  induction groups generalizing count with
  | nil =>
      simp [mergeConsecutiveGroups, specContiguousRun]
  | cons g rest ih =>
      rw [mergeConsecutiveGroups, specContiguousRun]
      by_cases hc : g.technique = techniqueIndex ∧ start + count = g.start
      · have hs : g.technique = techniqueIndex ∧ g.start = start + count :=
          ⟨hc.1, hc.2.symm⟩
        rw [if_pos hc, if_pos hs]
        have hpos : g.start + g.count = start + (count + g.count) := by omega
        rw [hpos, ih]
        simp only [List.map_cons, List.sum_cons, List.length_cons, List.drop_succ_cons,
          Prod.mk.injEq]
        exact ⟨by omega, trivial⟩
      · have hs : ¬(g.technique = techniqueIndex ∧ g.start = start + count) := by
          intro h2
          exact hc ⟨h2.1, h2.2.symm⟩
        rw [if_neg hc, if_neg hs]
        simp

/-- C8 (failing-input evaluation): on two accepted, handler-capable,
non-contiguous groups with the same technique index 0, the group loop
queries the pool twice for technique 0 — its per-call handler cache is read
but never written in the source, so the pool is not queried at most once
per technique index. -/
theorem createObjects_requeries_pool :
    ((createObjectsGroups (fun _ => true) (fun _ => true) (fun _ => true) (fun _ => true) 0
        requeriedGroups initialCreateObjectsState).2.poolQueries = [0, 0]) ∧
    ¬((createObjectsGroups (fun _ => true) (fun _ => true) (fun _ => true) (fun _ => true) 0
        requeriedGroups initialCreateObjectsState).2.poolQueries.count 0 ≤ 1) := by
  have hev : createObjectsGroups (fun _ => true) (fun _ => true) (fun _ => true)
      (fun _ => true) 0 requeriedGroups initialCreateObjectsState =
      ([⟨0, 5, 0, [0]⟩, ⟨8, 2, 0, [0]⟩],
        ⟨[], [], [0, 0], [⟨0, 5, 0⟩, ⟨8, 2, 0⟩], []⟩) := by
    simp +decide [createObjectsGroups, mergeConsecutiveGroups, requeriedGroups,
      initialCreateObjectsState]
  rw [hev]
  constructor
  · rfl
  · decide

end Harp
